import Mathlib

/-!
Verification of the scoring-orchestration core of the candidate-screener
repository (TypeScript/Next.js).  The definitions below are a shallow
embedding of the source files `src/lib/ai-service.ts`, `src/lib/prompts.ts`,
`src/lib/types.ts`, `src/lib/schemas.ts` and `src/app/api/score/route.ts`.

Modelling conventions:
* JavaScript numbers are embedded as `ℚ` (scores, weights); integer counters
  as `Nat`.
* Effectful LLM calls (`generateObject` / `generateText`) are abstracted as
  oracle inputs: a function giving, per batch, the settled outcome of the
  corresponding strategy attempt.  Everything after the oracle is translated
  from the source.
* `JSON.parse` (a JS builtin, external to the repository) is modelled as a
  value of type `Except String Json`: an exception or a parsed JSON tree.
* Thrown JS values are modelled by `JsError`, carrying exactly the
  duck-typed fields that `mapErrorToScoringError` / `isAPIError` inspect.
* Wall-clock values (`new Date()`, `Date.now()`) are irrelevant to every
  claim; they are embedded as the constant `0`.
-/

set_option maxHeartbeats 1000000

namespace CandidateScreener

/-- `Candidate` from `src/lib/types.ts`: the required fields, plus the
optional fields used by the scoring pipeline.  The many optional
spreadsheet-derived fields not read by any claimed code path are omitted. -/
structure Candidate where
  id : String
  name : String
  email : String
  experience : Int
  location : String
  bio : String
  skills : Option (List String)
  availability : Option String
deriving DecidableEq, Repr

/-- `ScoredCandidate` from `src/lib/types.ts`: a `Candidate` enriched with
the scoring fields.  `scoringTimestamp` (`new Date()` in the source) is
wall-clock, embedded as a `Nat` placeholder. -/
structure ScoredCandidate extends Candidate where
  score : ℚ
  highlights : List String
  reasoning : String
  matchedSkills : List String
  scoringTimestamp : Nat
deriving DecidableEq, Repr

/-- The six tags of the closed `ScoringError` union (`src/lib/types.ts`). -/
inductive ScoringErrorType where
  | RATE_LIMIT
  | PARSE_ERROR
  | NETWORK_ERROR
  | VALIDATION_ERROR
  | QUOTA_EXCEEDED
  | UNKNOWN_ERROR
deriving DecidableEq, Repr

/-- `ScoringError` discriminated union from `src/lib/types.ts`; each
constructor carries exactly the fields of its tag.  `resetTime` (a `Date`)
is embedded as `Nat`. -/
inductive ScoringError where
  | RATE_LIMIT (retryAfter : Nat) (message : String)
  | PARSE_ERROR (details : String) (rawResponse : Option String)
  | NETWORK_ERROR (message : String) (code : Option String)
  | VALIDATION_ERROR (field : String) (message : String)
  | QUOTA_EXCEEDED (resetTime : Nat) (message : String)
  | UNKNOWN_ERROR (message : String)
deriving DecidableEq, Repr

/-- The discriminant (`error.type`) of a `ScoringError`. -/
def ScoringError.type : ScoringError → ScoringErrorType
  | .RATE_LIMIT _ _ => .RATE_LIMIT
  | .PARSE_ERROR _ _ => .PARSE_ERROR
  | .NETWORK_ERROR _ _ => .NETWORK_ERROR
  | .VALIDATION_ERROR _ _ => .VALIDATION_ERROR
  | .QUOTA_EXCEEDED _ _ => .QUOTA_EXCEEDED
  | .UNKNOWN_ERROR _ => .UNKNOWN_ERROR

/-- `Result<T, E>` from `src/lib/types.ts`. -/
inductive Result (α : Type) (ε : Type) where
  | success (data : α)
  | failure (error : ε)
deriving DecidableEq, Repr

/-- `ScoringResult = Result<ReadonlyArray<ScoredCandidate>>`. -/
abbrev ScoringResult := Result (List ScoredCandidate) ScoringError

/-- `BatchResult` from `src/lib/ai-service.ts`. -/
inductive BatchResult where
  | success (data : List ScoredCandidate)
  | failure (error : ScoringError) (batchIndex : Nat)
deriving DecidableEq, Repr

/-- `createBatches` from `src/lib/ai-service.ts`:
`Array.from({length: Math.ceil(items.length / batchSize)}, (_, i) =>
  items.slice(i * batchSize, (i + 1) * batchSize))`.
`Math.ceil(n / B)` for naturals is `(n + B - 1) / B`, and
`slice(i*B, (i+1)*B)` is `take B` after `drop (i*B)`. -/
def createBatches {α : Type} (items : List α) (batchSize : Nat) : List (List α) :=
  (List.range ((items.length + batchSize - 1) / batchSize)).map
    (fun i => (items.drop (i * batchSize)).take batchSize)

theorem createBatches_nil {α : Type} (B : Nat) : createBatches ([] : List α) B = [] := by
  rcases Nat.eq_zero_or_pos B with hB | hB
  · subst hB; simp [createBatches]
  · have h0 : (B - 1) / B = 0 := Nat.div_eq_of_lt (by omega)
    simp [createBatches, h0]

theorem createBatches_cons {α : Type} {B : Nat} (hB : 0 < B) (l : List α) (hl : l ≠ []) :
    createBatches l B = l.take B :: createBatches (l.drop B) B := by
  have hn : 0 < l.length := List.length_pos.mpr hl
  set n := l.length with hns
  have hk : (n + B - 1) / B = ((n - B) + B - 1) / B + 1 := by
    rcases le_or_lt n B with hle | hlt
    · have h1 : (n + B - 1) / B = 1 := by
        apply Nat.div_eq_of_lt_le <;> omega
      have h2 : ((n - B) + B - 1) / B = 0 := Nat.div_eq_of_lt (by omega)
      omega
    · have harith : n + B - 1 = ((n - B) + B - 1) + B := by omega
      rw [harith, Nat.add_div_right _ hB]
  unfold createBatches
  rw [List.length_drop, ← hns, hk, List.range_succ_eq_map, List.map_cons, List.map_map]
  congr 1
  · simp
  · apply List.map_congr_left
    intro i _
    simp only [Function.comp_apply, Nat.succ_eq_add_one]
    rw [List.drop_drop]
    congr 1
    ring_nf

theorem createBatches_flatten {α : Type} {B : Nat} (hB : 0 < B) (l : List α) :
    (createBatches l B).flatten = l := by
  generalize hn : l.length = n
  induction n using Nat.strong_induction_on generalizing l with
  | _ n ih =>
    rcases eq_or_ne l [] with rfl | hne
    · simp [createBatches_nil]
    · rw [createBatches_cons hB l hne, List.flatten_cons]
      have hpos : 0 < l.length := List.length_pos.mpr hne
      have hlt : (l.drop B).length < n := by
        rw [List.length_drop]; omega
      rw [ih _ hlt (l.drop B) rfl]
      exact List.take_append_drop B l

theorem createBatches_length {α : Type} (l : List α) (B : Nat) :
    (createBatches l B).length = (l.length + B - 1) / B := by
  simp [createBatches]

theorem createBatches_mem_length_le {α : Type} {l : List α} {B : Nat}
    (b : List α) (hb : b ∈ createBatches l B) : b.length ≤ B := by
  simp only [createBatches, List.mem_map, List.mem_range] at hb
  obtain ⟨i, _, rfl⟩ := hb
  rw [List.length_take]
  omega

theorem createBatches_dropLast_full {α : Type} {l : List α} {B : Nat} (hB : 0 < B)
    (b : List α) (hb : b ∈ (createBatches l B).dropLast) : b.length = B := by
  have hdl : ∀ k : Nat, (List.range k).dropLast = List.range (k - 1) := by
    intro k
    match k with
    | 0 => simp
    | k + 1 => rw [List.range_succ, List.dropLast_concat]; simp
  unfold createBatches at hb
  rw [← List.map_dropLast, hdl] at hb
  simp only [List.mem_map, List.mem_range] at hb
  obtain ⟨i, hi, rfl⟩ := hb
  set n := l.length with hns
  have hi2 : i + 2 ≤ (n + B - 1) / B := by omega
  have hmul : (i + 2) * B ≤ n + B - 1 := by
    exact (Nat.le_div_iff_mul_le hB).mp hi2
  have hexp : (i + 2) * B = i * B + 2 * B := by ring
  rw [List.length_take, List.length_drop]
  omega

/-- C3: `createBatches` partitions the pool: exactly `⌈N/B⌉` batches, each of
size at most `B`, all but possibly the last of size exactly `B`, and their
in-order concatenation is the original pool (hence no duplicate or missing
element). -/
theorem createBatches_partition {α : Type} (l : List α) (B : Nat) (hB : 0 < B) :
    (createBatches l B).length = (l.length + B - 1) / B
    ∧ (∀ b ∈ createBatches l B, b.length ≤ B)
    ∧ (∀ b ∈ (createBatches l B).dropLast, b.length = B)
    ∧ (createBatches l B).flatten = l := by
  refine ⟨createBatches_length l B, ?_, ?_, createBatches_flatten hB l⟩
  · intro b hb; exact createBatches_mem_length_le b hb
  · intro b hb; exact createBatches_dropLast_full hB b hb

/-- Witness for C3 at a concrete pool: 5 elements, batch size 2 gives
3 batches `[[1,2],[3,4],[5]]`. -/
theorem createBatches_partition_witness :
    (0 < 2
    ∧ (createBatches [1, 2, 3, 4, 5] 2).length = (5 + 2 - 1) / 2
    ∧ (∀ b ∈ createBatches [1, 2, 3, 4, 5] 2, b.length ≤ 2)
    ∧ (∀ b ∈ (createBatches [1, 2, 3, 4, 5] 2).dropLast, b.length = 2)
    ∧ (createBatches [1, 2, 3, 4, 5] 2).flatten = [1, 2, 3, 4, 5])
    ∧ createBatches [1, 2, 3, 4, 5] 2 = [[1, 2], [3, 4], [5]] := by
  constructor
  · have h := createBatches_partition [1, 2, 3, 4, 5] 2 (by decide)
    exact ⟨by decide, h.1, h.2.1, h.2.2.1, h.2.2.2⟩
  · decide

/-- `calculateDelay` from `src/lib/ai-service.ts`:
`min(DEFAULT_CONFIG.baseDelay * 2 ** attempt, DEFAULT_CONFIG.maxDelay)`
with `baseDelay = 1000`, `maxDelay = 10000`. -/
def calculateDelay (attempt : Nat) : Nat :=
  min (1000 * 2 ^ attempt) 10000

/-- Instrumented embedding of the loop body of `retryWithBackoff`
(`src/lib/ai-service.ts`).  `op k` is the settled outcome of the k-th
invocation of the wrapped operation (0-indexed).  Starting at attempt
`attempt` with `fuel` retries remaining, it returns the final outcome, the
number of invocations made, and the list of backoff delays computed
(in order).  On a failure with retries remaining the source sleeps
`calculateDelay attempt` and continues (for 429 and for every other error
alike); with no retries left the loop exits and rethrows the last error. -/
def retryFrom {α ε : Type} (op : Nat → Except ε α) : Nat → Nat → Except ε α × Nat × List Nat
  | attempt, 0 =>
    match op attempt with
    | .ok a => (.ok a, 1, [])
    | .error e => (.error e, 1, [])
  | attempt, fuel + 1 =>
    match op attempt with
    | .ok a => (.ok a, 1, [])
    | .error _ =>
      let rest := retryFrom op (attempt + 1) fuel
      (rest.1, rest.2.1 + 1, calculateDelay attempt :: rest.2.2)

/-- `retryWithBackoff(operation, maxRetries = DEFAULT_CONFIG.maxRetries)`:
the loop runs attempts `0..maxRetries` (`maxRetries = 3` by default, so at
most 4 invocations). -/
def retryWithBackoff {α ε : Type} (op : Nat → Except ε α) (maxRetries : Nat) :
    Except ε α × Nat × List Nat :=
  retryFrom op 0 maxRetries

theorem range_map_shift {β : Type} (f : Nat → β) (n a : Nat) :
    (List.range (n + 1)).map (fun j => f (a + j)) =
      f a :: (List.range n).map (fun j => f (a + 1 + j)) := by
  rw [List.range_succ_eq_map, List.map_cons, List.map_map]
  refine List.cons_eq_cons.mpr ⟨by simp, ?_⟩
  apply List.map_congr_left
  intro j _
  simp only [Function.comp_apply, Nat.succ_eq_add_one]
  congr 1
  omega

theorem retryFrom_calls_le {α ε : Type} (op : Nat → Except ε α) (attempt fuel : Nat) :
    (retryFrom op attempt fuel).2.1 ≤ fuel + 1 := by
  induction fuel generalizing attempt with
  | zero =>
    unfold retryFrom
    rcases op attempt with e | a <;> simp
  | succ fuel ih =>
    unfold retryFrom
    rcases hop : op attempt with e | a
    · simpa using Nat.succ_le_succ (ih (attempt + 1))
    · simp

theorem retryFrom_ok {α ε : Type} (op : Nat → Except ε α) (attempt fuel : Nat)
    (a : α) (h : op attempt = .ok a) :
    retryFrom op attempt fuel = (.ok a, 1, []) := by
  cases fuel <;> (unfold retryFrom; rw [h])

theorem retryFrom_all_error {α ε : Type} (op : Nat → Except ε α) (attempt : Nat)
    (fuel : Nat) (e : ε)
    (hfail : ∀ j, j ≤ fuel → ∃ e', op (attempt + j) = .error e')
    (hlast : op (attempt + fuel) = .error e) :
    retryFrom op attempt fuel =
      (.error e, fuel + 1, (List.range fuel).map (fun j => calculateDelay (attempt + j))) := by
  induction fuel generalizing attempt with
  | zero =>
    unfold retryFrom
    simp only [Nat.add_zero] at hlast
    rw [hlast]
    simp
  | succ fuel ih =>
    obtain ⟨e0, h0⟩ := hfail 0 (by omega)
    simp only [Nat.add_zero] at h0
    unfold retryFrom
    rw [h0]
    have hrec := ih (attempt + 1)
      (fun j hj => by
        have := hfail (j + 1) (by omega)
        simpa [Nat.add_assoc, Nat.add_comm 1 j] using this)
      (by
        have : attempt + 1 + fuel = attempt + (fuel + 1) := by omega
        rw [this]; exact hlast)
    rw [hrec, range_map_shift calculateDelay fuel attempt]

theorem retryFrom_first_ok {α ε : Type} (op : Nat → Except ε α) (attempt : Nat)
    (fuel k : Nat) (a : α) (hk : k ≤ fuel)
    (hfail : ∀ j, j < k → ∃ e', op (attempt + j) = .error e')
    (hok : op (attempt + k) = .ok a) :
    retryFrom op attempt fuel =
      (.ok a, k + 1, (List.range k).map (fun j => calculateDelay (attempt + j))) := by
  induction k generalizing attempt fuel with
  | zero =>
    simp only [Nat.add_zero] at hok
    rw [retryFrom_ok op attempt fuel a hok]
    simp
  | succ k ih =>
    obtain ⟨e0, h0⟩ := hfail 0 (by omega)
    simp only [Nat.add_zero] at h0
    obtain ⟨fuel', rfl⟩ : ∃ fuel', fuel = fuel' + 1 := ⟨fuel - 1, by omega⟩
    unfold retryFrom
    rw [h0]
    have hrec := ih (attempt + 1) fuel' (by omega)
      (fun j hj => by
        have := hfail (j + 1) (by omega)
        simpa [Nat.add_assoc, Nat.add_comm 1 j] using this)
      (by
        have : attempt + 1 + k = attempt + (k + 1) := by omega
        rw [this]; exact hok)
    rw [hrec, range_map_shift calculateDelay k attempt]

/-- C2: with the default `maxRetries = 3` the retry controller makes at most
4 invocations; the k-th computed backoff delay (0-indexed, computed after the
failure of attempt k) is `min(1000·2^k, 10000)` ms; when every attempt fails
it rethrows the error of the last (4th) attempt unchanged, after computing
exactly the three delays for attempts 0, 1, 2; and a successful attempt ends
the loop at once: if attempt k is the first to succeed, exactly `k+1`
invocations are made and the success value is returned. -/
theorem retryWithBackoff_spec {α ε : Type} (op : Nat → Except ε α) :
    (retryWithBackoff op 3).2.1 ≤ 4
    ∧ (∀ k, calculateDelay k = min (1000 * 2 ^ k) 10000)
    ∧ (∀ e, (∀ j, j ≤ 3 → ∃ e', op j = .error e') → op 3 = .error e →
        retryWithBackoff op 3 =
          (.error e, 4, [calculateDelay 0, calculateDelay 1, calculateDelay 2]))
    ∧ (∀ k a, k ≤ 3 → (∀ j, j < k → ∃ e', op j = .error e') → op k = .ok a →
        retryWithBackoff op 3 =
          (.ok a, k + 1, (List.range k).map calculateDelay)) := by
  refine ⟨retryFrom_calls_le op 0 3, fun k => rfl, ?_, ?_⟩
  · intro e hfail hlast
    have h := retryFrom_all_error op 0 3 e
      (fun j hj => by simpa using hfail j hj) (by simpa using hlast)
    simpa [List.range_succ] using h
  · intro k a hk hfail hok
    have h := retryFrom_first_ok op 0 3 k a hk
      (fun j hj => by simpa using hfail j hj) (by simpa using hok)
    simpa using h

/-- Witness for C2: an operation that always fails is invoked exactly 4
times, the last error is rethrown, and the computed delays are
1000, 2000, 4000 ms. -/
theorem retryWithBackoff_spec_witness :
    retryWithBackoff (fun _ => (Except.error "boom" : Except String Nat)) 3 =
      (Except.error "boom", 4, [1000, 2000, 4000]) := by
  have h := (retryWithBackoff_spec (fun _ => (Except.error "boom" : Except String Nat))).2.2.1
    "boom" (fun j _ => ⟨"boom", rfl⟩) rfl
  simpa [calculateDelay] using h

/-- Oracle abstracting the two LLM-backed strategy attempts of
`scoreBatchWithStrategy` (`src/lib/ai-service.ts`): for a batch index and its
candidates, the settled `ScoringResult` of the structured attempt
(`generateObject` under retry, mapped through `createScoredCandidate` and the
catch-all `mapErrorToScoringError`) and of the fallback attempt
(`generateText` under retry, `validatePromptResponse`, then the same
mapping).  Each attempt is consulted at most once per batch, so a
deterministic oracle is faithful. -/
structure StrategyOracle where
  structured : Nat → List Candidate → ScoringResult
  fallback : Nat → List Candidate → ScoringResult

/-- `processBatch` from `src/lib/ai-service.ts`: run the structured strategy;
if it failed and the classified error type is `PARSE_ERROR`, run the fallback
strategy and use its result instead; finally convert the `ScoringResult`
into a `BatchResult` carrying the batch index on failure.  The `Bool`
records whether the fallback strategy was attempted. -/
def processBatch (o : StrategyOracle) (batch : List Candidate) (batchIndex : Nat) :
    BatchResult × Bool :=
  let first := o.structured batchIndex batch
  let step : ScoringResult × Bool :=
    match first with
    | .failure e =>
      if e.type = ScoringErrorType.PARSE_ERROR then (o.fallback batchIndex batch, true)
      else (.failure e, false)
    | .success d => (.success d, false)
  match step.1 with
  | .success d => (.success d, step.2)
  | .failure e => (.failure e batchIndex, step.2)

/-- `processParallelBatches` from `src/lib/ai-service.ts`: outcomes are
collected in batch order (groups of `maxConcurrentBatches` are awaited with
an all-settled join and appended in group order), then split into the
concatenation of the successful batches' scored candidates and the list of
errors from failed batches.  The inter-wave `delay(1000)` affects timing
only and is not modelled. -/
def processParallelBatches (o : StrategyOracle) (batches : List (List Candidate)) :
    List ScoredCandidate × List ScoringError :=
  let results := batches.enum.map (fun p => (processBatch o p.2 p.1).1)
  ((results.filterMap (fun r =>
      match r with
      | .success d => some d
      | .failure _ _ => none)).flatten,
   results.filterMap (fun r =>
      match r with
      | .success _ => none
      | .failure e _ => some e))

/-- Stable insertion step for the embedding of the stable
`Array.prototype.sort` (ECMA-262) with comparator `(a, b) => b.score - a.score`
used by `sortAndLimitCandidates` (`src/lib/ai-service.ts`).  The sort folds
from the right, so the inserted element precedes (in the input) everything
already in the accumulator; stability therefore places it before the first
element whose score is ≤ its own. -/
def insertByScoreDesc (c : ScoredCandidate) : List ScoredCandidate → List ScoredCandidate
  | [] => [c]
  | d :: ds => if d.score ≤ c.score then c :: d :: ds else d :: insertByScoreDesc c ds

/-- Stable descending-by-score sort: the unique result of any stable sort
with comparator `(a, b) => b.score - a.score`, as used by
`sortAndLimitCandidates`. -/
def sortByScoreDesc : List ScoredCandidate → List ScoredCandidate
  | [] => []
  | c :: cs => insertByScoreDesc c (sortByScoreDesc cs)

/-- `sortAndLimitCandidates` from `src/lib/ai-service.ts`:
`candidates.slice().sort((a, b) => b.score - a.score).slice(0, maxResults)`. -/
def sortAndLimitCandidates (candidates : List ScoredCandidate) (maxResults : Nat) :
    List ScoredCandidate :=
  (sortByScoreDesc candidates).take maxResults

/-- `scoreCandidates` from `src/lib/ai-service.ts` (defaults
`batchSize = 10`, `maxResults = 30` made explicit).  The job description and
weights only enter prompt construction, which the oracle absorbs. -/
def scoreCandidates (o : StrategyOracle) (candidates : List Candidate)
    (batchSize maxResults : Nat) : ScoringResult :=
  if candidates.length = 0 then .success []
  else
    let batches := createBatches candidates batchSize
    let pr := processParallelBatches o batches
    if pr.1.length = 0 then
      .failure (pr.2.headD (.UNKNOWN_ERROR "No candidates could be scored"))
    else
      .success (sortAndLimitCandidates pr.1 maxResults)

/-- Number of strategy attempts (each of which performs at least one and at
most four provider calls) made by `processBatch`: one structured attempt plus
the fallback attempt when taken. -/
def processBatchAttempts (o : StrategyOracle) (batch : List Candidate) (batchIndex : Nat) :
    Nat :=
  1 + (if (processBatch o batch batchIndex).2 then 1 else 0)

/-- Total number of LLM strategy attempts of a `scoreCandidates` run: zero
when the pool is empty (the guard returns before `createBatches`), otherwise
the sum over all batches. -/
def scoreCandidatesAttempts (o : StrategyOracle) (candidates : List Candidate)
    (batchSize : Nat) : Nat :=
  if candidates.length = 0 then 0
  else ((createBatches candidates batchSize).enum.map
          (fun p => processBatchAttempts o p.2 p.1)).sum

theorem insertByScoreDesc_perm (c : ScoredCandidate) (l : List ScoredCandidate) :
    List.Perm (insertByScoreDesc c l) (c :: l) := by
  induction l with
  | nil => simp [insertByScoreDesc]
  | cons d ds ih =>
    unfold insertByScoreDesc
    by_cases h : d.score ≤ c.score
    · simp [h]
    · rw [if_neg h]
      exact (ih.cons d).trans (List.Perm.swap c d ds)

theorem insertByScoreDesc_sorted (c : ScoredCandidate) {l : List ScoredCandidate}
    (h : l.Pairwise (fun a b => b.score ≤ a.score)) :
    (insertByScoreDesc c l).Pairwise (fun a b => b.score ≤ a.score) := by
  induction l with
  | nil => simp [insertByScoreDesc]
  | cons d ds ih =>
    rcases List.pairwise_cons.mp h with ⟨hd, hds⟩
    unfold insertByScoreDesc
    by_cases hle : d.score ≤ c.score
    · rw [if_pos hle]
      refine List.pairwise_cons.mpr ⟨?_, h⟩
      intro b hb
      rcases List.mem_cons.mp hb with rfl | hbds
      · exact hle
      · exact le_trans (hd b hbds) hle
    · rw [if_neg hle]
      refine List.pairwise_cons.mpr ⟨?_, ih hds⟩
      intro b hb
      have hb' : b ∈ c :: ds := (insertByScoreDesc_perm c ds).mem_iff.mp hb
      rcases List.mem_cons.mp hb' with rfl | hbds
      · exact le_of_lt (lt_of_not_le hle)
      · exact hd b hbds

theorem sortByScoreDesc_perm (l : List ScoredCandidate) :
    List.Perm (sortByScoreDesc l) l := by
  induction l with
  | nil => rfl
  | cons c cs ih =>
    exact (insertByScoreDesc_perm c (sortByScoreDesc cs)).trans (ih.cons c)

theorem sortByScoreDesc_sorted (l : List ScoredCandidate) :
    (sortByScoreDesc l).Pairwise (fun a b => b.score ≤ a.score) := by
  induction l with
  | nil => simp [sortByScoreDesc]
  | cons c cs ih => exact insertByScoreDesc_sorted c ih

theorem insertByScoreDesc_filter (c : ScoredCandidate) (l : List ScoredCandidate) (s : ℚ) :
    (insertByScoreDesc c l).filter (fun x => decide (x.score = s)) =
      if c.score = s then c :: l.filter (fun x => decide (x.score = s))
      else l.filter (fun x => decide (x.score = s)) := by
  induction l with
  | nil => by_cases hc : c.score = s <;> simp [insertByScoreDesc, hc]
  | cons d ds ih =>
    unfold insertByScoreDesc
    by_cases hle : d.score ≤ c.score
    · rw [if_pos hle]
      by_cases hc : c.score = s <;> simp [List.filter_cons, hc]
    · rw [if_neg hle]
      by_cases hc : c.score = s
      · have hd : ¬(d.score = s) := by
          intro hds
          exact hle (by rw [hds, ← hc])
        simp [List.filter_cons, hd, hc, ih]
      · by_cases hd : d.score = s <;> simp [List.filter_cons, hd, hc, ih]

theorem sortByScoreDesc_filter (l : List ScoredCandidate) (s : ℚ) :
    (sortByScoreDesc l).filter (fun x => decide (x.score = s)) =
      l.filter (fun x => decide (x.score = s)) := by
  induction l with
  | nil => rfl
  | cons c cs ih =>
    unfold sortByScoreDesc
    rw [insertByScoreDesc_filter]
    by_cases hc : c.score = s <;> simp [List.filter_cons, hc, ih]

/-- C1: the fallback (constrained-text) strategy is attempted exactly when
the structured strategy failed with an error classified as `PARSE_ERROR`;
on a structured failure of any other classification the fallback is not
attempted and that error (with the batch index) is the batch's failure
outcome. -/
theorem processBatch_fallback_iff (o : StrategyOracle) (batch : List Candidate) (i : Nat) :
    ((processBatch o batch i).2 = true ↔
      ∃ e, o.structured i batch = Result.failure e
        ∧ e.type = ScoringErrorType.PARSE_ERROR)
    ∧ (∀ e, o.structured i batch = Result.failure e →
        e.type ≠ ScoringErrorType.PARSE_ERROR →
        processBatch o batch i = (BatchResult.failure e i, false)) := by
  refine ⟨?_, ?_⟩
  · rcases hs : o.structured i batch with d | e
    · simp [processBatch, hs]
    · by_cases hp : e.type = ScoringErrorType.PARSE_ERROR
      · rcases hf : o.fallback i batch with d2 | e2 <;>
          simp [processBatch, hs, hp, hf]
      · simp [processBatch, hs, hp]
  · intro e he hp
    simp [processBatch, he, hp]

/-- Oracle whose structured strategy always fails with a `NETWORK_ERROR`. -/
def networkFailOracle : StrategyOracle :=
  ⟨fun _ _ => Result.failure (ScoringError.NETWORK_ERROR "down" none),
   fun _ _ => Result.success []⟩

/-- Witness for C1: a structured `NETWORK_ERROR` failure skips the fallback
and becomes the batch outcome. -/
theorem processBatch_fallback_iff_witness :
    processBatch networkFailOracle [] 0 =
      (BatchResult.failure (ScoringError.NETWORK_ERROR "down" none) 0, false) :=
  (processBatch_fallback_iff networkFailOracle [] 0).2
    (ScoringError.NETWORK_ERROR "down" none) rfl (by decide)

/-- C7: on the empty candidate pool, `scoreCandidates` returns success with
the empty list before any batching, making zero LLM strategy attempts (hence
zero `generateObject`/`generateText` calls), and indeed no batch exists. -/
theorem scoreCandidates_empty_pool (o : StrategyOracle) (batchSize maxResults : Nat) :
    scoreCandidates o [] batchSize maxResults = Result.success []
    ∧ scoreCandidatesAttempts o [] batchSize = 0
    ∧ createBatches ([] : List Candidate) batchSize = [] :=
  ⟨by simp [scoreCandidates], by simp [scoreCandidatesAttempts], createBatches_nil _⟩

/-- C4: whenever at least one batch succeeded, `scoreCandidates` returns
success whose data is the concatenation of the successful batches' scored
candidates, stably sorted in descending score order (a permutation, sorted
non-increasingly, and for every score value the candidates having exactly
that score appear in their pre-sort relative order), truncated to at most
`maxResults`; the collected errors of failed batches never turn this partial
success into a failure. -/
theorem scoreCandidates_partial_success (o : StrategyOracle) (candidates : List Candidate)
    (batchSize maxResults : Nat)
    (hne : (processParallelBatches o (createBatches candidates batchSize)).1 ≠ []) :
    scoreCandidates o candidates batchSize maxResults =
      Result.success
        ((sortByScoreDesc
            (processParallelBatches o (createBatches candidates batchSize)).1).take maxResults)
    ∧ List.Perm
        (sortByScoreDesc (processParallelBatches o (createBatches candidates batchSize)).1)
        (processParallelBatches o (createBatches candidates batchSize)).1
    ∧ (sortByScoreDesc
          (processParallelBatches o (createBatches candidates batchSize)).1).Pairwise
        (fun a b => b.score ≤ a.score)
    ∧ (∀ s : ℚ,
        (sortByScoreDesc
            (processParallelBatches o (createBatches candidates batchSize)).1).filter
          (fun x => decide (x.score = s)) =
        ((processParallelBatches o (createBatches candidates batchSize)).1).filter
          (fun x => decide (x.score = s)))
    ∧ ((sortByScoreDesc
          (processParallelBatches o (createBatches candidates batchSize)).1).take
        maxResults).length ≤ maxResults := by
  have hcne : ¬(candidates.length = 0) := by
    intro h0
    have hnil : candidates = [] := List.length_eq_zero.mp h0
    subst hnil
    rw [createBatches_nil] at hne
    simp [processParallelBatches] at hne
  have hlen : ¬((processParallelBatches o (createBatches candidates batchSize)).1.length = 0) := by
    intro h0
    exact hne (List.length_eq_zero.mp h0)
  refine ⟨?_, sortByScoreDesc_perm _, sortByScoreDesc_sorted _,
    fun s => sortByScoreDesc_filter _ s, ?_⟩
  · simp only [scoreCandidates, sortAndLimitCandidates]
    rw [if_neg hcne, if_neg hlen]
  · rw [List.length_take]
    omega

/-- Oracle whose structured strategy succeeds with two fixed scored
candidates (scores 50 and 80, in that order). -/
def twoSuccessOracle : StrategyOracle :=
  ⟨fun _ _ => Result.success
      [⟨⟨"a", "n", "e", 1, "l", "b", none, none⟩, 50, ["h"], "reasoning", [], 0⟩,
       ⟨⟨"b", "n", "e", 1, "l", "b", none, none⟩, 80, ["h"], "reasoning", [], 0⟩],
   fun _ _ => Result.success []⟩

/-- A one-element candidate pool used by concrete witnesses. -/
def onePool : List Candidate := [⟨"a", "n", "e", 1, "l", "b", none, none⟩]

/-- Witness for C4: one batch succeeding with scores `[50, 80]` yields
success with the candidates re-sorted to scores `[80, 50]`. -/
theorem scoreCandidates_partial_success_witness :
    scoreCandidates twoSuccessOracle onePool 10 30 =
      Result.success
        [⟨⟨"b", "n", "e", 1, "l", "b", none, none⟩, 80, ["h"], "reasoning", [], 0⟩,
         ⟨⟨"a", "n", "e", 1, "l", "b", none, none⟩, 50, ["h"], "reasoning", [], 0⟩] := by
  have h := scoreCandidates_partial_success twoSuccessOracle onePool 10 30 (by decide)
  rw [h.1]
  decide

theorem filterMap_first_some {α β : Type} (f : α → Option β) (results : List α) (j : Nat)
    (hj : j < results.length) (b : β)
    (hnone : ∀ k, (hk : k < j) → f (results.get ⟨k, lt_trans hk hj⟩) = none)
    (hsome : f (results.get ⟨j, hj⟩) = some b) :
    (results.filterMap f).head? = some b := by
  induction results generalizing j with
  | nil => simp at hj
  | cons r rs ih =>
    cases j with
    | zero =>
      simp only [List.get] at hsome
      rw [List.filterMap_cons, hsome]
      rfl
    | succ j' =>
      have h0 : f r = none := hnone 0 (Nat.succ_pos j')
      rw [List.filterMap_cons, h0]
      have hj' : j' < rs.length := Nat.lt_of_succ_lt_succ hj
      exact ih j' hj'
        (fun k hk => hnone (k + 1) (Nat.succ_lt_succ hk))
        hsome

/-- C6: when the pool is non-empty but no candidate was scored, the result
is failure carrying the head of the collected error list (or `UNKNOWN_ERROR`
when that list is empty); and since outcomes are collected in batch order,
the head of the error list is the error of the lowest-indexed failed batch. -/
theorem scoreCandidates_total_failure (o : StrategyOracle) (candidates : List Candidate)
    (batchSize maxResults : Nat)
    (hc : candidates ≠ [])
    (hz : (processParallelBatches o (createBatches candidates batchSize)).1 = []) :
    scoreCandidates o candidates batchSize maxResults =
      Result.failure
        ((processParallelBatches o (createBatches candidates batchSize)).2.headD
          (ScoringError.UNKNOWN_ERROR "No candidates could be scored"))
    ∧ (∀ j e, j < (createBatches candidates batchSize).length →
        (∀ k, k < j →
          ∃ d, (processBatch o ((createBatches candidates batchSize).getD k []) k).1 =
            BatchResult.success d) →
        (processBatch o ((createBatches candidates batchSize).getD j []) j).1 =
          BatchResult.failure e j →
        (processParallelBatches o (createBatches candidates batchSize)).2.head? = some e) := by
  constructor
  · have hcne : ¬(candidates.length = 0) := fun h0 => hc (List.length_eq_zero.mp h0)
    have hlen : (processParallelBatches o (createBatches candidates batchSize)).1.length = 0 := by
      rw [hz]; rfl
    simp only [scoreCandidates]
    rw [if_neg hcne, if_pos hlen]
  · intro j e hj hsucc hfail
    set batches := createBatches candidates batchSize with hbs
    have hjr : j < (batches.enum.map (fun p => (processBatch o p.2 p.1).1)).length := by
      simpa using hj
    have hget : ∀ k, (hk : k < batches.length) →
        (batches.enum.map (fun p => (processBatch o p.2 p.1).1)).get
            ⟨k, by simpa using hk⟩ =
          (processBatch o (batches.getD k []) k).1 := by
      intro k hk
      have h3 : batches.getD k [] = batches.get ⟨k, hk⟩ := by
        simp [List.getD_eq_getElem?_getD, List.getElem?_eq_getElem hk]
      rw [h3]
      simp [List.get_eq_getElem, List.getElem_map, List.getElem_enum]
    show ((batches.enum.map (fun p => (processBatch o p.2 p.1).1)).filterMap
        (fun r => match r with
          | BatchResult.success _ => none
          | BatchResult.failure e _ => some e)).head? = some e
    refine filterMap_first_some _ _ j hjr e ?_ ?_
    · intro k hk
      have hkb : k < batches.length := lt_trans hk hj
      rw [hget k hkb]
      obtain ⟨d, hd⟩ := hsucc k hk
      rw [hd]
    · rw [hget j hj, hfail]

/-- Witness for C6: a single failing batch produces failure carrying its
`NETWORK_ERROR`, which is also the head of the error list. -/
theorem scoreCandidates_total_failure_witness :
    scoreCandidates networkFailOracle onePool 10 30 =
      Result.failure (ScoringError.NETWORK_ERROR "down" none)
    ∧ (processParallelBatches networkFailOracle (createBatches onePool 10)).2.head? =
        some (ScoringError.NETWORK_ERROR "down" none) := by
  have h := scoreCandidates_total_failure networkFailOracle onePool 10 30
    (by decide) (by decide)
  constructor
  · rw [h.1]
    decide
  · exact h.2 0 (ScoringError.NETWORK_ERROR "down" none) (by decide)
      (fun k hk => absurd hk (Nat.not_lt_zero k)) (by decide)

/-- `ScoringWeights` from `src/lib/types.ts`: five fractions. -/
structure ScoringWeights where
  skillsMatch : ℚ
  experienceLevel : ℚ
  education : ℚ
  portfolio : ℚ
  availability : ℚ
deriving DecidableEq, Repr

/-- The optional per-field weights object accepted by the POST body
(`route.ts`, `ScoreRequestBodySchema.weights`): every field optional. -/
structure PartialScoringWeights where
  skillsMatch : Option ℚ
  experienceLevel : Option ℚ
  education : Option ℚ
  portfolio : Option ℚ
  availability : Option ℚ
deriving DecidableEq, Repr

/-- The sum reduced over the five weight fields, as in the
`ScoringWeightsSchema` refinement (`Object.values(weights).reduce(...)`). -/
def weightsSum (w : ScoringWeights) : ℚ :=
  w.skillsMatch + w.experienceLevel + w.education + w.portfolio + w.availability

/-- `z.number().min(0).max(1)`. -/
def inUnitInterval (q : ℚ) : Bool :=
  decide (0 ≤ q) && decide (q ≤ 1)

/-- `BaseScoringWeightsSchema` from `src/lib/schemas.ts`: each of the five
fields a number in `[0, 1]`. -/
def baseScoringWeightsAccepts (w : ScoringWeights) : Bool :=
  inUnitInterval w.skillsMatch && inUnitInterval w.experienceLevel &&
    inUnitInterval w.education && inUnitInterval w.portfolio &&
    inUnitInterval w.availability

/-- `ScoringWeightsSchema` from `src/lib/schemas.ts`: the base schema refined
by `Math.abs(sum - 1) < 0.001`.  This schema is defined but never invoked by
the request handler in `route.ts`. -/
def scoringWeightsSchemaAccepts (w : ScoringWeights) : Bool :=
  baseScoringWeightsAccepts w && decide (|weightsSum w - 1| < 1 / 1000)

def optionalInUnit : Option ℚ → Bool
  | none => true
  | some q => inUnitInterval q

/-- The weights clause of `ScoreRequestBodySchema` (`route.ts` lines 14–22):
each supplied field must be a number in `[0, 1]`; absent fields are allowed;
there is no constraint on the sum. -/
def scoreRequestBodyWeightsAccepts (w : PartialScoringWeights) : Bool :=
  optionalInUnit w.skillsMatch && optionalInUnit w.experienceLevel &&
    optionalInUnit w.education && optionalInUnit w.portfolio &&
    optionalInUnit w.availability

/-- `fullWeights` construction in the POST handler (`route.ts` lines
169–177): absent fields replaced by the defaults 0.4 / 0.25 / 0.15 / 0.1 /
0.1, supplied fields passed through unchanged. -/
def fillWeights (w : PartialScoringWeights) : ScoringWeights :=
  ⟨w.skillsMatch.getD (2 / 5), w.experienceLevel.getD (1 / 4),
   w.education.getD (3 / 20), w.portfolio.getD (1 / 10),
   w.availability.getD (1 / 10)⟩

/-- The weights-relevant slice of the POST handler (`route.ts`): the body is
validated with `ScoreRequestBodySchema`; on a Zod failure a
`VALIDATION_ERROR` (field `body`, message the first Zod issue) is returned
with status 400 before any scoring attempt; on success the default-filled
weights are passed to `scoreCandidates` unchanged. -/
def routeWeightsOutcome (w : Option PartialScoringWeights) :
    Except ScoringError (Option ScoringWeights) :=
  match w with
  | none => .ok none
  | some pw =>
    if scoreRequestBodyWeightsAccepts pw then .ok (some (fillWeights pw))
    else .error (.VALIDATION_ERROR "body" "weights validation failed")

/-- A complete custom weight set summing to `0.8`. -/
def outOfToleranceWeights : PartialScoringWeights :=
  ⟨some (1 / 5), some (1 / 5), some (1 / 5), some (1 / 10), some (1 / 10)⟩

/-- Counterexample to C5: the complete weight set
`(0.2, 0.2, 0.2, 0.1, 0.1)` sums to `0.8`, far outside the `±0.001`
tolerance, yet the request boundary accepts it and passes it unchanged into
scoring — no validation error is raised.  (The sum check exists only in the
never-invoked `ScoringWeightsSchema`, which would reject it.) -/
theorem route_accepts_out_of_tolerance_weights :
    routeWeightsOutcome (some outOfToleranceWeights) =
      Except.ok (some ⟨1 / 5, 1 / 5, 1 / 5, 1 / 10, 1 / 10⟩)
    ∧ weightsSum ⟨1 / 5, 1 / 5, 1 / 5, 1 / 10, 1 / 10⟩ = 4 / 5
    ∧ ¬(|weightsSum ⟨1 / 5, 1 / 5, 1 / 5, 1 / 10, 1 / 10⟩ - 1| < 1 / 1000)
    ∧ scoringWeightsSchemaAccepts ⟨1 / 5, 1 / 5, 1 / 5, 1 / 10, 1 / 10⟩ = false := by
  refine ⟨?_, by norm_num [weightsSum], ?_, ?_⟩
  · simp [routeWeightsOutcome, outOfToleranceWeights, scoreRequestBodyWeightsAccepts,
      optionalInUnit, inUnitInterval, fillWeights]
    norm_num
  · rw [show weightsSum ⟨1 / 5, 1 / 5, 1 / 5, 1 / 10, 1 / 10⟩ = 4 / 5 from by
      norm_num [weightsSum]]
    rw [show |(4 : ℚ) / 5 - 1| = 1 / 5 from by rw [abs_of_nonpos] <;> norm_num]
    norm_num
  · simp only [scoringWeightsSchemaAccepts, Bool.and_eq_false_iff]
    right
    rw [show weightsSum ⟨1 / 5, 1 / 5, 1 / 5, 1 / 10, 1 / 10⟩ = 4 / 5 from by
      norm_num [weightsSum]]
    rw [show |(4 : ℚ) / 5 - 1| = 1 / 5 from by rw [abs_of_nonpos] <;> norm_num]
    norm_num

/-- C5 (amended): the sum-to-1-within-0.001 rule exists only in
`ScoringWeightsSchema`, which accepts a weight set iff each fraction is in
`[0, 1]` and the sum is within `0.001` of 1.  The request boundary
(`ScoreRequestBodySchema` in `route.ts`) never applies it: supplied weights
are accepted iff each supplied fraction lies in `[0, 1]` (no sum condition),
an accepted set is passed to scoring with absent fields default-filled and
supplied fields unchanged (a complete set goes through verbatim — never
renormalized), and a rejected set yields a `VALIDATION_ERROR` before any
scoring attempt. -/
theorem weights_validation_amended :
    (∀ w : ScoringWeights,
      scoringWeightsSchemaAccepts w = true ↔
        (baseScoringWeightsAccepts w = true ∧ |weightsSum w - 1| < 1 / 1000))
    ∧ (∀ pw : PartialScoringWeights,
        scoreRequestBodyWeightsAccepts pw = true →
          routeWeightsOutcome (some pw) = .ok (some (fillWeights pw)))
    ∧ (∀ a b c d e : ℚ,
        fillWeights ⟨some a, some b, some c, some d, some e⟩ = ⟨a, b, c, d, e⟩)
    ∧ (∀ pw : PartialScoringWeights,
        scoreRequestBodyWeightsAccepts pw = false →
          routeWeightsOutcome (some pw) =
            .error (.VALIDATION_ERROR "body" "weights validation failed")) := by
  refine ⟨?_, ?_, ?_, ?_⟩
  · intro w
    simp [scoringWeightsSchemaAccepts, Bool.and_eq_true, decide_eq_true_iff]
  · intro pw h
    simp [routeWeightsOutcome, h]
  · intro a b c d e
    rfl
  · intro pw h
    simp [routeWeightsOutcome, h]

/-- Witness for C5 (amended): the default weight set, supplied explicitly,
is in tolerance, accepted by `ScoringWeightsSchema`, and passed through the
request boundary unchanged. -/
theorem weights_validation_amended_witness :
    scoringWeightsSchemaAccepts ⟨2 / 5, 1 / 4, 3 / 20, 1 / 10, 1 / 10⟩ = true
    ∧ routeWeightsOutcome
        (some ⟨some (2 / 5), some (1 / 4), some (3 / 20), some (1 / 10), some (1 / 10)⟩) =
      .ok (some ⟨2 / 5, 1 / 4, 3 / 20, 1 / 10, 1 / 10⟩) := by
  constructor
  · refine (weights_validation_amended.1 _).mpr ⟨?_, ?_⟩
    · simp [baseScoringWeightsAccepts, inUnitInterval]
      norm_num
    · rw [show weightsSum ⟨2 / 5, 1 / 4, 3 / 20, 1 / 10, 1 / 10⟩ = 1 from by
        norm_num [weightsSum]]
      norm_num
  · rw [weights_validation_amended.2.1 _ (by
      simp [scoreRequestBodyWeightsAccepts, optionalInUnit, inUnitInterval]
      norm_num)]
    rfl

/-- A JSON value, the result of a successful `JSON.parse`. -/
inductive Json where
  | null
  | bool (b : Bool)
  | num (v : ℚ)
  | str (s : String)
  | arr (items : List Json)
  | obj (fields : List (String × Json))

/-- Property lookup on a parsed JSON object: `JSON.parse` keeps the last
occurrence of a duplicated key. -/
def lookupField : List (String × Json) → String → Option Json
  | [], _ => none
  | p :: rest, key =>
    match lookupField rest key with
    | some v => some v
    | none => if p.1 = key then some p.2 else none

/-- JS property access `value.key`: a value on objects, `undefined` (here
`none`) on non-null primitives and arrays.  Access on `null` throws and is
handled separately at each access site. -/
def getField : Json → String → Option Json
  | .obj fields, key => lookupField fields key
  | _, _ => none

/-- JS truthiness of a parsed JSON value (`undefined` is handled at the
`Option` level; `NaN` cannot arise from `JSON.parse`). -/
def Json.truthy : Json → Bool
  | .null => false
  | .bool b => b
  | .num v => decide (v ≠ 0)
  | .str s => decide (s ≠ "")
  | .arr _ => true
  | .obj _ => true

def truthyOpt : Option Json → Bool
  | none => false
  | some j => j.truthy

def isStringOpt : Option Json → Bool
  | some (.str _) => true
  | _ => false

def isArrayOpt : Option Json → Bool
  | some (.arr _) => true
  | _ => false

/-- `typeof score === "number" && score >= 0 && score <= 100` (the negation
of the rejection test in the source). -/
def scoreInRange : Option Json → Bool
  | some (.num v) => decide (0 ≤ v) && decide (v ≤ 100)
  | _ => false

def isNullJson : Json → Bool
  | .null => true
  | _ => false

/-- The per-item body of the `for` loop of `validatePromptResponse`
(`src/lib/prompts.ts` lines 258–297): the first failing check yields its
message.  A `null` item makes the property access throw a `TypeError`,
which the surrounding `try` turns into an `Invalid JSON: ...` result. -/
def candidateItemError (item : Json) : Option String :=
  if isNullJson item then
    some "Invalid JSON: TypeError: Cannot read properties of null (reading \x27id\x27)"
  else if !(truthyOpt (getField item "id") && isStringOpt (getField item "id")) then
    some "Each candidate must have valid \x27id\x27 string"
  else if !scoreInRange (getField item "score") then
    some "Each candidate must have \x27score\x27 number between 0-100"
  else if !isArrayOpt (getField item "highlights") then
    some "Each candidate must have \x27highlights\x27 array"
  else if !(truthyOpt (getField item "reasoning") && isStringOpt (getField item "reasoning")) then
    some "Each candidate must have \x27reasoning\x27 string"
  else if !isArrayOpt (getField item "matchedSkills") then
    some "Each candidate must have \x27matchedSkills\x27 array"
  else
    none

/-- `ValidationResult` from `src/lib/prompts.ts`. -/
structure ValidationResult where
  isValid : Bool
  error : Option String
  parsed : Option Json

/-- `validatePromptResponse` from `src/lib/prompts.ts`: the argument models
the outcome of `JSON.parse(response)` (a JS builtin, external to the
repository): an exception message or a parsed JSON value.  A parsed `null`
makes `parsed.candidates` throw, caught by the same `try`.  On success the
parsed value is returned unmodified. -/
def validatePromptResponse (parseResult : Except String Json) : ValidationResult :=
  match parseResult with
  | .error e => ⟨false, some ("Invalid JSON: SyntaxError: " ++ e), none⟩
  | .ok parsed =>
    if isNullJson parsed then
      ⟨false,
       some "Invalid JSON: TypeError: Cannot read properties of null (reading \x27candidates\x27)",
       none⟩
    else
      match getField parsed "candidates" with
      | some (.arr items) =>
        match items.findSome? candidateItemError with
        | some msg => ⟨false, some msg, none⟩
        | none => ⟨true, none, some parsed⟩
      | _ => ⟨false, some "Response must have \x27candidates\x27 array", none⟩

/-- The shape actually accepted per item by the source: a *non-empty* string
`id`, a numeric `score` in `[0, 100]`, array `highlights`, a *non-empty*
string `reasoning`, and array `matchedSkills`. -/
def goodItem (item : Json) : Prop :=
  (∃ s, getField item "id" = some (.str s) ∧ s ≠ "")
  ∧ (∃ q, getField item "score" = some (.num q) ∧ 0 ≤ q ∧ q ≤ 100)
  ∧ (∃ hs, getField item "highlights" = some (.arr hs))
  ∧ (∃ r, getField item "reasoning" = some (.str r) ∧ r ≠ "")
  ∧ (∃ ms, getField item "matchedSkills" = some (.arr ms))

theorem truthy_string_iff (g : Option Json) :
    (truthyOpt g && isStringOpt g) = true ↔ ∃ s, g = some (.str s) ∧ s ≠ "" := by
  cases g with
  | none => simp [truthyOpt, isStringOpt]
  | some j => cases j <;> simp [truthyOpt, isStringOpt, Json.truthy]

theorem score_range_iff (g : Option Json) :
    scoreInRange g = true ↔ ∃ q, g = some (.num q) ∧ 0 ≤ q ∧ q ≤ 100 := by
  cases g with
  | none => simp [scoreInRange]
  | some j => cases j <;> simp [scoreInRange, and_assoc]

theorem array_iff (g : Option Json) :
    isArrayOpt g = true ↔ ∃ xs, g = some (.arr xs) := by
  cases g with
  | none => simp [isArrayOpt]
  | some j => cases j <;> simp [isArrayOpt]

theorem candidateItemError_eq_none_iff (item : Json) :
    candidateItemError item = none ↔ goodItem item := by
  by_cases hn : isNullJson item = true
  · have hnull : item = Json.null := by
      cases item <;> simp_all [isNullJson]
    subst hnull
    simp [candidateItemError, isNullJson, goodItem, getField]
  · rw [candidateItemError, if_neg hn]
    constructor
    · intro h
      split_ifs at h with h1 h2 h3 h4 h5
      refine ⟨?_, ?_, ?_, ?_, ?_⟩
      · exact (truthy_string_iff _).mp (by simpa using h1)
      · exact (score_range_iff _).mp (by simpa using h2)
      · exact (array_iff _).mp (by simpa using h3)
      · exact (truthy_string_iff _).mp (by simpa using h4)
      · exact (array_iff _).mp (by simpa using h5)
    · intro hg
      rcases hg with ⟨h1, h2, h3, h4, h5⟩
      rw [if_neg, if_neg, if_neg, if_neg, if_neg]
      · simp [(array_iff _).mpr h5]
      · simp [(truthy_string_iff _).mpr h4]
      · simp [(array_iff _).mpr h3]
      · simp [(score_range_iff _).mpr h2]
      · simp [(truthy_string_iff _).mpr h1]

theorem findSome?_eq_none_iff {α β : Type} (f : α → Option β) (l : List α) :
    l.findSome? f = none ↔ ∀ x ∈ l, f x = none := by
  induction l with
  | nil => simp
  | cons a as ih =>
    rw [List.findSome?_cons]
    cases hfa : f a with
    | none => simp [hfa, ih]
    | some b => simp [hfa]

/-- C8 (amended): `validatePromptResponse` is total — every input yields a
result, and every invalid result carries a descriptive error — and it
returns a valid result exactly when the parse succeeded, the parsed value
has a `candidates` array, and every item has a non-empty string `id`, a
numeric `score` in `[0, 100]`, an array `highlights`, a non-empty string
`reasoning`, and an array `matchedSkills`; in the valid case the parsed
value is returned unmodified.  (Relative to the claim as frozen, the empty
string is additionally rejected for `id` and `reasoning`, because the
source tests JS truthiness before the type of those fields.) -/
theorem validatePromptResponse_spec (input : Except String Json) :
    ((validatePromptResponse input).isValid = true
      ∨ ((validatePromptResponse input).isValid = false
          ∧ (validatePromptResponse input).error.isSome = true))
    ∧ ((validatePromptResponse input).isValid = true ↔
        ∃ p items, input = .ok p ∧ getField p "candidates" = some (.arr items)
          ∧ ∀ it ∈ items, goodItem it)
    ∧ (∀ p, input = .ok p → (validatePromptResponse input).isValid = true →
        (validatePromptResponse input).parsed = some p) := by
  cases input with
  | error e =>
    refine ⟨Or.inr ⟨rfl, rfl⟩, ?_, ?_⟩
    · simp [validatePromptResponse]
    · intro p hp
      exact absurd hp (by simp)
  | ok p =>
    by_cases hn : isNullJson p = true
    · have hnull : p = Json.null := by cases p <;> simp_all [isNullJson]
      subst hnull
      refine ⟨Or.inr ⟨by simp [validatePromptResponse, isNullJson],
        by simp [validatePromptResponse, isNullJson]⟩, ?_, ?_⟩
      · simp [validatePromptResponse, isNullJson, getField]
      · intro q hq hv
        simp [validatePromptResponse, isNullJson] at hv
    · cases hget : getField p "candidates" with
      | none =>
        refine ⟨Or.inr ⟨?_, ?_⟩, ?_, ?_⟩
        · simp [validatePromptResponse, hn, hget]
        · simp [validatePromptResponse, hn, hget]
        · simp [validatePromptResponse, hn, hget]
        · intro q hq hv
          injection hq with hq
          subst hq
          simp [validatePromptResponse, hn, hget] at hv
      | some gval =>
        cases gval with
        | arr items =>
          cases hfind : items.findSome? candidateItemError with
          | none =>
            have hall : ∀ it ∈ items, goodItem it := by
              intro it hit
              exact (candidateItemError_eq_none_iff it).mp
                (((findSome?_eq_none_iff _ _).mp hfind) it hit)
            refine ⟨Or.inl ?_, ?_, ?_⟩
            · simp [validatePromptResponse, hn, hget, hfind]
            · simp only [validatePromptResponse, hn, Bool.false_eq_true, if_false, hget, hfind]
              simp only [true_iff]
              exact ⟨p, items, rfl, hget, hall⟩
            · intro q hq hv
              injection hq with hq
              subst hq
              simp [validatePromptResponse, hn, hget, hfind]
          | some msg =>
            have hnotall : ¬(∀ it ∈ items, goodItem it) := by
              intro hall
              have hnone : items.findSome? candidateItemError = none :=
                (findSome?_eq_none_iff _ _).mpr
                  (fun it hit => (candidateItemError_eq_none_iff it).mpr (hall it hit))
              rw [hnone] at hfind
              exact Option.noConfusion hfind
            refine ⟨Or.inr ⟨?_, ?_⟩, ?_, ?_⟩
            · simp [validatePromptResponse, hn, hget, hfind]
            · simp [validatePromptResponse, hn, hget, hfind]
            · simp only [validatePromptResponse, hn, Bool.false_eq_true, if_false, hget, hfind]
              constructor
              · intro hfalse
                exact absurd hfalse (by simp)
              · rintro ⟨q, its, hq, hgq, hall⟩
                injection hq with hq
                subst hq
                rw [hget] at hgq
                injection hgq with hgq
                injection hgq with hgq
                subst hgq
                exact absurd hall hnotall
            · intro q hq hv
              simp [validatePromptResponse, hn, hget, hfind] at hv
        | null =>
          refine ⟨Or.inr ⟨?_, ?_⟩, ?_, ?_⟩ <;>
            simp [validatePromptResponse, hn, hget]
        | bool b =>
          refine ⟨Or.inr ⟨?_, ?_⟩, ?_, ?_⟩ <;>
            simp [validatePromptResponse, hn, hget]
        | num v =>
          refine ⟨Or.inr ⟨?_, ?_⟩, ?_, ?_⟩ <;>
            simp [validatePromptResponse, hn, hget]
        | str s =>
          refine ⟨Or.inr ⟨?_, ?_⟩, ?_, ?_⟩ <;>
            simp [validatePromptResponse, hn, hget]
        | obj fields =>
          refine ⟨Or.inr ⟨?_, ?_⟩, ?_, ?_⟩ <;>
            simp [validatePromptResponse, hn, hget]

/-- The validity condition exactly as the claim words it (for comparison
with the source behaviour): valid JSON whose value has a `candidates` array
in which every item has a string `id` (any string), a numeric `score` in
`[0, 100]`, an array `highlights`, a string `reasoning` (any string), and an
array `matchedSkills`. -/
def specClaimValid (input : Except String Json) : Prop :=
  ∃ p items, input = .ok p ∧ getField p "candidates" = some (.arr items)
    ∧ ∀ it ∈ items,
        (∃ s, getField it "id" = some (.str s))
        ∧ (∃ q, getField it "score" = some (.num q) ∧ 0 ≤ q ∧ q ≤ 100)
        ∧ (∃ hs, getField it "highlights" = some (.arr hs))
        ∧ (∃ r, getField it "reasoning" = some (.str r))
        ∧ (∃ ms, getField it "matchedSkills" = some (.arr ms))

/-- A response item whose `id` is the empty string (a string!) and whose
other fields satisfy every condition the claim lists. -/
def emptyIdItem : Json :=
  .obj [("id", .str ""), ("score", .num 50), ("highlights", .arr []),
        ("reasoning", .str "solid background"), ("matchedSkills", .arr [])]

def emptyIdResponse : Json := .obj [("candidates", .arr [emptyIdItem])]

/-- Counterexample to C8 as frozen: on a parsed value satisfying every
condition of the claim (the `id` is a string — the empty one), the source
still returns an invalid result, because `!candidate.id` rejects the falsy
empty string before the `typeof` test. -/
theorem validatePromptResponse_claim_counterexample :
    specClaimValid (.ok emptyIdResponse)
    ∧ (validatePromptResponse (.ok emptyIdResponse)).isValid = false
    ∧ (validatePromptResponse (.ok emptyIdResponse)).error =
        some "Each candidate must have valid \x27id\x27 string" := by
  refine ⟨⟨emptyIdResponse, [emptyIdItem], rfl, rfl, ?_⟩, rfl, rfl⟩
  intro it hit
  have hit' : it = emptyIdItem := by
    simpa using hit
  subst hit'
  exact ⟨⟨"", rfl⟩, ⟨50, rfl, by norm_num, by norm_num⟩, ⟨[], rfl⟩,
    ⟨"solid background", rfl⟩, ⟨[], rfl⟩⟩

def goodItemExample : Json :=
  .obj [("id", .str "c1"), ("score", .num 50), ("highlights", .arr [.str "h"]),
        ("reasoning", .str "well matched"), ("matchedSkills", .arr [])]

def goodResponseExample : Json := .obj [("candidates", .arr [goodItemExample])]

/-- Witness for C8 (amended): a well-shaped response is accepted and the
parsed value is returned unmodified. -/
theorem validatePromptResponse_spec_witness :
    (validatePromptResponse (.ok goodResponseExample)).isValid = true
    ∧ (validatePromptResponse (.ok goodResponseExample)).parsed = some goodResponseExample := by
  have h := validatePromptResponse_spec (.ok goodResponseExample)
  have hv : (validatePromptResponse (.ok goodResponseExample)).isValid = true := by
    refine (h.2.1).mpr ⟨goodResponseExample, [goodItemExample], rfl, rfl, ?_⟩
    intro it hit
    have hit' : it = goodItemExample := by simpa using hit
    subst hit'
    exact ⟨⟨"c1", rfl, by decide⟩, ⟨50, rfl, by norm_num, by norm_num⟩,
      ⟨[.str "h"], rfl⟩, ⟨"well matched", rfl, by decide⟩, ⟨[], rfl⟩⟩
  exact ⟨hv, h.2.2 goodResponseExample rfl hv⟩

/-- `AICandidateResponse` from `src/lib/ai-service.ts`: one item of an LLM
response. -/
structure AICandidateResponse where
  id : String
  score : ℚ
  highlights : List String
  reasoning : String
  matchedSkills : List String
deriving DecidableEq, Repr

/-- `createCandidateScore` from `src/lib/types.ts`: throws unless the score
is within `[0, 100]`. -/
def createCandidateScore (score : ℚ) : Except String ℚ :=
  if score < 0 ∨ score > 100 then .error "Score must be between 0 and 100"
  else .ok score

/-- `createScoredCandidate` from `src/lib/ai-service.ts`: look up the
original candidate by id (`find`), throwing when absent; then merge.  In the
source, `candidate.highlights || []` and `candidate.matchedSkills || []` are
identities (arrays, even empty ones, are truthy), while
`candidate.reasoning || "No reasoning provided"` replaces the falsy empty
string. -/
def createScoredCandidate (candidate : AICandidateResponse)
    (originalCandidates : List Candidate) : Except String ScoredCandidate :=
  match originalCandidates.find? (fun c => c.id == candidate.id) with
  | none => .error ("Candidate with ID " ++ candidate.id ++ " not found")
  | some orig =>
    match createCandidateScore candidate.score with
    | .error m => .error m
    | .ok s =>
      .ok { toCandidate := orig
            score := s
            highlights := candidate.highlights
            reasoning :=
              if candidate.reasoning = "" then "No reasoning provided"
              else candidate.reasoning
            matchedSkills := candidate.matchedSkills
            scoringTimestamp := 0 }

/-- `object.candidates.map((candidate) => createScoredCandidate(candidate,
candidates))` with JS exception semantics: the first thrown error aborts the
mapping. -/
def mapCreateScored (items : List AICandidateResponse) (orig : List Candidate) :
    Except String (List ScoredCandidate) :=
  match items with
  | [] => .ok []
  | it :: rest =>
    match createScoredCandidate it orig with
    | .error m => .error m
    | .ok sc =>
      match mapCreateScored rest orig with
      | .error m => .error m
      | .ok scs => .ok (sc :: scs)

/-- The duck-typed view of a thrown JS object, carrying exactly the fields
`isAPIError` / `mapErrorToScoringError` inspect (`src/lib/ai-service.ts`).
`none` models an absent (`undefined`) field. -/
structure APIErrorView where
  status : Option Int
  retryAfter : Option Nat
  message : Option String
  code : Option String
  name : Option String
  issues : Option (List String)
  rawResponse : Option String
deriving DecidableEq, Repr

/-- A thrown JS value: a non-object primitive (with its `String(...)`
rendering and its truthiness), or an object seen through `APIErrorView`. -/
inductive JsError where
  | primitive (stringValue : String) (truthy : Bool)
  | object (e : APIErrorView)
deriving DecidableEq, Repr

/-- `error.retryAfter || 60`: `0` and `undefined` are falsy. -/
def numOrDefault (n : Option Nat) (d : Nat) : Nat :=
  match n with
  | some k => if k = 0 then d else k
  | none => d

/-- `error.message || default`: the empty string and `undefined` are falsy. -/
def msgOrDefault (m : Option String) (d : String) : String :=
  match m with
  | some s => if s = "" then d else s
  | none => d

/-- Template-literal interpolation of a possibly-undefined string. -/
def interpolate (m : Option String) : String := m.getD "undefined"

def charsPrefix : List Char → List Char → Bool
  | [], _ => true
  | _ :: _, [] => false
  | a :: as, b :: bs => a == b && charsPrefix as bs

def charsContains (pat : List Char) : List Char → Bool
  | [] => charsPrefix pat []
  | c :: rest => charsPrefix pat (c :: rest) || charsContains pat rest

/-- `s.includes(pat)` for JS strings. -/
def strIncludes (s pat : String) : Bool := charsContains pat.data s.data

/-- `error.message?.includes("JSON")`: falsy when `message` is absent. -/
def messageIncludesJSON (m : Option String) : Bool :=
  match m with
  | none => false
  | some s => strIncludes s "JSON"

/-- `mapErrorToScoringError` from `src/lib/ai-service.ts`, branch for
branch.  `resetTime` (`new Date(Date.now() + 24h)`) is a wall-clock value,
embedded as `0`. -/
def mapErrorToScoringError : JsError → ScoringError
  | .primitive sv truthy =>
    .UNKNOWN_ERROR (if truthy then sv else "Unknown error occurred")
  | .object e =>
    if e.status = some 429 then
      .RATE_LIMIT (numOrDefault e.retryAfter 60) "API rate limit exceeded"
    else if e.status = some 402 ∨ e.code = some "insufficient_quota" then
      .QUOTA_EXCEEDED 0 "API quota exceeded"
    else if e.code = some "ECONNREFUSED" ∨ e.code = some "ENOTFOUND"
        ∨ e.code = some "TIMEOUT" then
      .NETWORK_ERROR ("Network error: " ++ interpolate e.message) e.code
    else if e.name = some "ZodError" ∨ e.issues.isSome then
      .VALIDATION_ERROR "response" "Invalid response format from AI model"
    else if e.name = some "SyntaxError" ∧ messageIncludesJSON e.message = true then
      .PARSE_ERROR (e.message.getD "")
        (match e.rawResponse with
         | some raw => if raw = "" then none else some raw
         | none => none)
    else
      .UNKNOWN_ERROR (msgOrDefault e.message "Unknown error occurred")

/-- The `APIErrorView` of a plain `new Error(msg)`: name `"Error"`, the
message, and no status, code, issues or rawResponse. -/
def plainJsError (msg : String) : JsError :=
  .object ⟨none, none, some msg, none, some "Error", none, none⟩

/-- The structured branch of `scoreBatchWithStrategy`
(`src/lib/ai-service.ts`): `gen` is the settled outcome of
`retryWithBackoff(generateObject(...))` — a thrown JS error or the
schema-validated list of response items; the items are then mapped through
`createScoredCandidate`, and the enclosing `catch` sends any thrown error
(including those of `createScoredCandidate`, which are plain `Error`s)
through `mapErrorToScoringError`. -/
def scoreBatchStructured (gen : Except JsError (List AICandidateResponse))
    (candidates : List Candidate) : ScoringResult :=
  match gen with
  | .error e => .failure (mapErrorToScoringError e)
  | .ok items =>
    match mapCreateScored items candidates with
    | .error msg => .failure (mapErrorToScoringError (plainJsError msg))
    | .ok scored => .success scored

theorem createScoredCandidate_not_found {resp : AICandidateResponse}
    {orig : List Candidate} (h : ∀ c ∈ orig, c.id ≠ resp.id) :
    createScoredCandidate resp orig =
      .error ("Candidate with ID " ++ resp.id ++ " not found") := by
  have hfind : orig.find? (fun c => c.id == resp.id) = none := by
    rw [List.find?_eq_none]
    intro c hc
    simpa using h c hc
  rw [createScoredCandidate, hfind]

theorem mapCreateScored_ok_forall {items : List AICandidateResponse}
    {orig : List Candidate} {l : List ScoredCandidate}
    (h : mapCreateScored items orig = .ok l) :
    ∀ it ∈ items, ∃ sc, createScoredCandidate it orig = .ok sc := by
  induction items generalizing l with
  | nil => intro it hit; exact absurd hit (List.not_mem_nil it)
  | cons a as ih =>
    intro it hit
    rw [mapCreateScored] at h
    rcases hha : createScoredCandidate a orig with m | sc
    · rw [hha] at h; exact Except.noConfusion h
    · rw [hha] at h
      rcases hr : mapCreateScored as orig with m | scs
      · rw [hr] at h; exact Except.noConfusion h
      · rcases List.mem_cons.mp hit with rfl | hmem
        · exact ⟨sc, hha⟩
        · exact ih hr it hmem

theorem notFound_ne_empty (badId : String) :
    ("Candidate with ID " ++ badId ++ " not found") ≠ "" := by
  intro h
  have hlen := congrArg String.length h
  rw [String.length_append, String.length_append] at hlen
  have h1 : ("Candidate with ID " : String).length = 18 := by decide
  have h2 : (" not found" : String).length = 10 := by decide
  have h3 : ("" : String).length = 0 := by decide
  omega

theorem mapError_plain (msg : String) (hne : msg ≠ "") :
    mapErrorToScoringError (plainJsError msg) = .UNKNOWN_ERROR msg := by
  simp [mapErrorToScoringError, plainJsError, msgOrDefault, hne]

theorem processBatch_non_parse_failure (o : StrategyOracle) (batch : List Candidate)
    (i : Nat) (e : ScoringError)
    (he : o.structured i batch = Result.failure e)
    (hp : e.type ≠ ScoringErrorType.PARSE_ERROR) :
    processBatch o batch i = (BatchResult.failure e i, false) := by
  simp [processBatch, he, hp]

theorem mapCreateScored_first_unknown (items : List AICandidateResponse)
    (orig : List Candidate)
    (hscore : ∀ it ∈ items, 0 ≤ it.score ∧ it.score ≤ 100)
    (hbad : ∃ it ∈ items, ∀ c ∈ orig, c.id ≠ it.id) :
    ∃ badId, (∃ it ∈ items, it.id = badId ∧ ∀ c ∈ orig, c.id ≠ it.id) ∧
      mapCreateScored items orig =
        .error ("Candidate with ID " ++ badId ++ " not found") := by
  induction items with
  | nil =>
    rcases hbad with ⟨it, hit, -⟩
    exact absurd hit (List.not_mem_nil it)
  | cons a as ih =>
    by_cases hk : ∀ c ∈ orig, c.id ≠ a.id
    · refine ⟨a.id, ⟨a, List.mem_cons_self a as, rfl, hk⟩, ?_⟩
      rw [mapCreateScored, createScoredCandidate_not_found hk]
    · have hofind : ∃ c, orig.find? (fun c => c.id == a.id) = some c := by
        push_neg at hk
        rcases hk with ⟨c, hc, hcid⟩
        have : (orig.find? (fun c => c.id == a.id)).isSome = true := by
          rw [List.find?_isSome]
          exact ⟨c, hc, by simpa using hcid⟩
        exact Option.isSome_iff_exists.mp this
      rcases hofind with ⟨c, hc⟩
      have hsc : 0 ≤ a.score ∧ a.score ≤ 100 :=
        hscore a (List.mem_cons_self a as)
      have hcs : createCandidateScore a.score = .ok a.score := by
        rw [createCandidateScore, if_neg]
        push_neg
        exact hsc
      have hok : ∃ sc, createScoredCandidate a orig = .ok sc := by
        rw [createScoredCandidate, hc, hcs]
        exact ⟨_, rfl⟩
      rcases hok with ⟨sc, hsc'⟩
      have hbad' : ∃ it ∈ as, ∀ cc ∈ orig, cc.id ≠ it.id := by
        rcases hbad with ⟨it, hit, hbadid⟩
        rcases List.mem_cons.mp hit with rfl | hmem
        · exact absurd hbadid hk
        · exact ⟨it, hmem, hbadid⟩
      have hscore' : ∀ it ∈ as, 0 ≤ it.score ∧ it.score ≤ 100 :=
        fun it hit => hscore it (List.mem_cons_of_mem a hit)
      rcases ih hscore' hbad' with ⟨badId, ⟨it, hmem, hid, hunk⟩, hmap⟩
      refine ⟨badId, ⟨it, List.mem_cons_of_mem a hmem, hid, hunk⟩, ?_⟩
      rw [mapCreateScored, hsc', hmap]

/-- C9: a response item whose id matches no candidate of the batch makes
`createScoredCandidate` throw (with the `not found` message); a successfully
produced `ScoredCandidate` always extends a candidate of the batch carrying
the item's id (never fabricated); and a batch containing such an item makes
the whole structured mapping — and hence the strategy attempt — fail rather
than silently dropping the item. -/
theorem createScoredCandidate_unknown_id (resp : AICandidateResponse)
    (orig : List Candidate) :
    ((∀ c ∈ orig, c.id ≠ resp.id) →
      createScoredCandidate resp orig =
        .error ("Candidate with ID " ++ resp.id ++ " not found"))
    ∧ (∀ sc, createScoredCandidate resp orig = .ok sc →
        ∃ c ∈ orig, c.id = resp.id ∧ sc.toCandidate = c)
    ∧ (∀ items, resp ∈ items → (∀ c ∈ orig, c.id ≠ resp.id) →
        ∃ e, scoreBatchStructured (.ok items) orig = Result.failure e) := by
  refine ⟨fun h => createScoredCandidate_not_found h, ?_, ?_⟩
  · intro sc hsc
    rw [createScoredCandidate] at hsc
    rcases hfind : orig.find? (fun c => c.id == resp.id) with _ | c
    · rw [hfind] at hsc; exact Except.noConfusion hsc
    · rw [hfind] at hsc
      rcases hcs : createCandidateScore resp.score with m | s
      · rw [hcs] at hsc; exact Except.noConfusion hsc
      · rw [hcs] at hsc
        injection hsc with hsc
        refine ⟨c, List.mem_of_find?_eq_some hfind, ?_, ?_⟩
        · have := List.find?_some hfind
          simpa using this
        · rw [← hsc]
  · intro items hmem hunk
    rcases hmap : mapCreateScored items orig with m | l
    · exact ⟨_, by rw [scoreBatchStructured, hmap]⟩
    · rcases mapCreateScored_ok_forall hmap resp hmem with ⟨sc, hsc⟩
      rw [createScoredCandidate_not_found hunk] at hsc
      exact Except.noConfusion hsc

/-- A response item with an id (`"ghost"`) matching no candidate. -/
def ghostItem : AICandidateResponse :=
  ⟨"ghost", 50, ["h"], "well matched", []⟩

/-- Witness for C9: mapping `ghostItem` against a batch without that id
throws the `not found` error. -/
theorem createScoredCandidate_unknown_id_witness :
    createScoredCandidate ghostItem onePool =
      .error ("Candidate with ID " ++ "ghost" ++ " not found") :=
  (createScoredCandidate_unknown_id ghostItem onePool).1 (by decide)

/-- C10: when the structured response contains an item with an unknown id
(and, as the schema guarantees, all scores are in range), the first such
item's `createScoredCandidate` failure is a plain `Error`, classified by
`mapErrorToScoringError` as `UNKNOWN_ERROR` (not `PARSE_ERROR`); the batch
therefore fails with that `UNKNOWN_ERROR` and the fallback strategy is not
attempted. -/
theorem structured_unknown_id_unknown_error (o : StrategyOracle)
    (items : List AICandidateResponse) (batch : List Candidate) (i : Nat)
    (hscore : ∀ it ∈ items, 0 ≤ it.score ∧ it.score ≤ 100)
    (hbad : ∃ it ∈ items, ∀ c ∈ batch, c.id ≠ it.id)
    (ho : o.structured i batch = scoreBatchStructured (.ok items) batch) :
    ∃ badId,
      o.structured i batch =
        Result.failure
          (ScoringError.UNKNOWN_ERROR ("Candidate with ID " ++ badId ++ " not found"))
      ∧ (ScoringError.UNKNOWN_ERROR
            ("Candidate with ID " ++ badId ++ " not found")).type ≠
          ScoringErrorType.PARSE_ERROR
      ∧ processBatch o batch i =
          (BatchResult.failure
            (ScoringError.UNKNOWN_ERROR ("Candidate with ID " ++ badId ++ " not found")) i,
           false) := by
  rcases mapCreateScored_first_unknown items batch hscore hbad with ⟨badId, -, hmap⟩
  have hfail : o.structured i batch =
      Result.failure
        (ScoringError.UNKNOWN_ERROR ("Candidate with ID " ++ badId ++ " not found")) := by
    rw [ho]
    simp only [scoreBatchStructured, hmap]
    rw [mapError_plain _ (notFound_ne_empty badId)]
  have htype : (ScoringError.UNKNOWN_ERROR
      ("Candidate with ID " ++ badId ++ " not found")).type ≠
        ScoringErrorType.PARSE_ERROR := by
    simp [ScoringError.type]
  exact ⟨badId, hfail, htype,
    processBatch_non_parse_failure o batch i _ hfail htype⟩

/-- An oracle whose structured attempt settles to the mapped outcome of a
schema-valid response consisting of `ghostItem` alone. -/
def ghostOracle : StrategyOracle :=
  ⟨fun _ b => scoreBatchStructured (.ok [ghostItem]) b,
   fun _ _ => Result.success []⟩

/-- Witness for C10: the single unknown-id item makes the batch fail with
`UNKNOWN_ERROR` and the fallback is not attempted. -/
theorem structured_unknown_id_unknown_error_witness :
    processBatch ghostOracle onePool 0 =
      (BatchResult.failure
        (ScoringError.UNKNOWN_ERROR "Candidate with ID ghost not found") 0, false) := by
  have h := structured_unknown_id_unknown_error ghostOracle [ghostItem] onePool 0
    (by decide) ⟨ghostItem, by decide, by decide⟩ rfl
  rcases h with ⟨badId, h1, -, h3⟩
  have hcomp : ghostOracle.structured 0 onePool =
      Result.failure (ScoringError.UNKNOWN_ERROR "Candidate with ID ghost not found") := by
    decide
  rw [hcomp] at h1
  injection h1 with h1
  injection h1 with h1
  rw [h3, ← h1]

end CandidateScreener
